import Mathlib

/-!
Shallow embedding of the task-dispatch-and-result-correlation core of
stash-plugin-recraft-icons: `pollLogsForMessage` (the log poller),
`pollLogsWithRetries` (the retry loop) and `fetchTagIcon` (the
orchestrator).  Effectful primitives (Date.now, the GraphQL log query,
runPluginTask, setTimeout) are modelled by explicit parameters recording
what the environment returns; delays awaited are recorded in the result.
-/

/-- Whitespace as trimmed by the platform string trim primitive
(modelled by the common ASCII whitespace characters). -/
def jsWs (c : Char) : Bool :=
  c = ' ' || c = '\t' || c = '\n' || c = '\r'

/-- Drop leading whitespace from a character list. -/
def skipWs (cs : List Char) : List Char :=
  cs.dropWhile fun c => jsWs c

/-- Trim whitespace from both ends of a character list. -/
def trimChars (cs : List Char) : List Char :=
  ((cs.dropWhile fun c => jsWs c).reverse.dropWhile fun c => jsWs c).reverse

/-- Model of the string trim primitive used by `.trim()` in the source. -/
def jsTrim (s : String) : String := ⟨trimChars s.data⟩

/-- Model of `s.startsWith(pat)`. -/
def jsStartsWith (s pat : String) : Bool := pat.data.isPrefixOf s.data

/-- Replace the first occurrence of `pat` in a character list by `rep`;
if `pat` does not occur, the list is returned unchanged.  Models the
behaviour of `String.prototype.replace` with a plain-string pattern. -/
def replaceFirstChars (pat rep : List Char) : List Char → List Char
  | [] => if pat = [] then rep else []
  | c :: cs =>
    if pat.isPrefixOf (c :: cs) then rep ++ (c :: cs).drop pat.length
    else c :: replaceFirstChars pat rep cs

/-- Model of `s.replace(pat, rep)` for a plain-string pattern. -/
def jsReplaceFirst (s pat rep : String) : String :=
  ⟨replaceFirstChars pat.data rep.data s.data⟩

/-- Extraction performed by the poller on a matched entry:
`log.message.replace(prefix, '').trim()`. -/
def extractBody (pfx msg : String) : String :=
  jsTrim (jsReplaceFirst msg pfx "")

/-- A log entry as returned by the `Logs` GraphQL query.  The source
compares `Date.parse(log.time)` with millisecond clock readings; `time`
holds that parsed numeric value. -/
structure LogEntry where
  time : Int
  level : String
  message : String
deriving DecidableEq

/-- Filter applied to each entry inside the poll loop:
`logTime > reqTime && log.message.startsWith(prefix)`. -/
def matchPred (reqTime : Int) (pfx : String) (e : LogEntry) : Bool :=
  decide (e.time > reqTime) && jsStartsWith e.message pfx

/-- Scan of the fetched log snapshot: the `for (const log of logs.logs)`
loop returns at the first entry satisfying `matchPred`. -/
def findMatch (reqTime : Int) (pfx : String) : List LogEntry → Option LogEntry
  | [] => none
  | e :: rest =>
    if matchPred reqTime pfx e then some e else findMatch reqTime pfx rest

/-- Result of one `pollLogsForMessage` call: the settled outcome (ok with
the extracted body, or the thrown timeout string), the number of log
queries performed, and the delays awaited in order (milliseconds). -/
structure PollResult where
  outcome : Except String String
  fetchCount : Nat
  waits : List Nat

/-- Body of the `while (true)` loop of `pollLogsForMessage`, entered with
the current value `r` of `retries`.  Each iteration waits `2 ** retries *
100`, increments `retries`, fetches the log snapshot (modelled by
`fetch r`, the snapshot returned by the query of 0-indexed attempt `r`),
scans it, and exits with the extracted body on a match or with the thrown
string once `retries >= 5`. -/
def pollLoop (pfx : String) (reqTime : Int) (fetch : Nat → List LogEntry)
    (r : Nat) : PollResult :=
  let delay := 2 ^ r * 100
  match findMatch reqTime pfx (fetch r) with
  | some e => ⟨.ok (extractBody pfx e.message), 1, [delay]⟩
  | none =>
    if r + 1 ≥ 5 then
      ⟨.error ("Poll logs failed for message: " ++ pfx), 1, [delay]⟩
    else
      let rest := pollLoop pfx reqTime fetch (r + 1)
      ⟨rest.outcome, rest.fetchCount + 1, delay :: rest.waits⟩
termination_by 5 - r
decreasing_by omega

/-- Model of `pollLogsForMessage(prefix)`.  `pollStart` is the value of
`Date.now()` captured at entry (`const reqTime = Date.now()`); the
function first awaits a fixed 500 ms grace delay, then runs the retry
loop from `retries = 0`. -/
def pollLogsForMessage (pfx : String) (pollStart : Int)
    (fetch : Nat → List LogEntry) : PollResult :=
  let inner := pollLoop pfx pollStart fetch 0
  ⟨inner.outcome, inner.fetchCount, 500 :: inner.waits⟩

/-- Model of the call `pollLogsForMessage(prefix, 'Info', reqTime)` made
by `pollLogsWithRetries`: the source function declares only the single
parameter `prefix`, so the `levelArg` and `reqTimeArg` actually passed are
discarded and the filter reference is the poll-local `pollStart`. -/
def pollLogsForMessageCall (pfx _levelArg : String) (_reqTimeArg : Int)
    (pollStart : Int) (fetch : Nat → List LogEntry) : PollResult :=
  pollLogsForMessage pfx pollStart fetch

/-- A structured value as produced by the platform JSON parse primitive. -/
inductive Json where
  | null : Json
  | bool : Bool → Json
  | num : Int → Json
  | str : String → Json
  | arr : List Json → Json
  | obj : List (String × Json) → Json

/-- Unescape one character after a backslash inside a JSON string. -/
def escChar (c : Char) : Option Char :=
  if c = '"' || c = '\\' || c = '/' then some c
  else if c = 'n' then some '\n'
  else if c = 't' then some '\t'
  else if c = 'r' then some '\r'
  else none

/-- Read the body of a JSON string up to the closing quote, returning the
content and the remaining input. -/
def parseStrBody : List Char → Option (List Char × List Char)
  | [] => none
  | '"' :: rest => some ([], rest)
  | '\\' :: e :: rest => do
    let c ← escChar e
    let (s, r) ← parseStrBody rest
    some (c :: s, r)
  | c :: rest => do
    let (s, r) ← parseStrBody rest
    some (c :: s, r)

/-- Take the leading run of decimal digits, as numeric values. -/
def takeDigits (cs : List Char) : List Nat × List Char :=
  let p := cs.span fun c => c.isDigit
  (p.1.map fun c => c.toNat - 48, p.2)

/-- Decimal value of a digit list. -/
def digitsToNat (ds : List Nat) : Nat := ds.foldl (fun a d => a * 10 + d) 0

/-- Consume a literal keyword tail. -/
def stripLit (lit cs : List Char) : Option (List Char) :=
  if lit.isPrefixOf cs then some (cs.drop lit.length) else none

mutual

/-- Recursive-descent reading of one JSON value (fuelled). -/
def parseVal : Nat → List Char → Option (Json × List Char)
  | 0, _ => none
  | fuel + 1, cs =>
    match skipWs cs with
    | [] => none
    | '"' :: rest => (parseStrBody rest).map fun p => (.str ⟨p.1⟩, p.2)
    | '{' :: rest =>
      match skipWs rest with
      | '}' :: r2 => some (.obj [], r2)
      | r2 => (parseMembers fuel r2).map fun p => (.obj p.1, p.2)
    | '[' :: rest =>
      match skipWs rest with
      | ']' :: r2 => some (.arr [], r2)
      | r2 => (parseElems fuel r2).map fun p => (.arr p.1, p.2)
    | c :: rest =>
      if c = 't' then (stripLit ['r', 'u', 'e'] rest).map fun r => (.bool true, r)
      else if c = 'f' then (stripLit ['a', 'l', 's', 'e'] rest).map fun r => (.bool false, r)
      else if c = 'n' then (stripLit ['u', 'l', 'l'] rest).map fun r => (.null, r)
      else if c = '-' then
        match takeDigits rest with
        | ([], _) => none
        | (ds, r) => some (.num (-(digitsToNat ds : Int)), r)
      else
        match takeDigits (c :: rest) with
        | ([], _) => none
        | (ds, r) => some (.num (digitsToNat ds), r)

/-- Reading of the members of a JSON object after `{` (fuelled). -/
def parseMembers : Nat → List Char → Option (List (String × Json) × List Char)
  | 0, _ => none
  | fuel + 1, cs =>
    match skipWs cs with
    | '"' :: rest =>
      match parseStrBody rest with
      | none => none
      | some (key, r1) =>
        match skipWs r1 with
        | ':' :: r2 =>
          match parseVal fuel r2 with
          | none => none
          | some (v, r3) =>
            match skipWs r3 with
            | ',' :: r4 => (parseMembers fuel r4).map fun p => ((⟨key⟩, v) :: p.1, p.2)
            | '}' :: r4 => some ([(⟨key⟩, v)], r4)
            | _ => none
        | _ => none
    | _ => none

/-- Reading of the elements of a JSON array after `[` (fuelled). -/
def parseElems : Nat → List Char → Option (List Json × List Char)
  | 0, _ => none
  | fuel + 1, cs =>
    match parseVal fuel cs with
    | none => none
    | some (v, r1) =>
      match skipWs r1 with
      | ',' :: r2 => (parseElems fuel r2).map fun p => (v :: p.1, p.2)
      | ']' :: r2 => some ([v], r2)
      | _ => none

end

/-- Model of the platform JSON parse primitive `JSON.parse`: `none` models
a thrown SyntaxError, `some j` a successfully parsed value (no trailing
non-whitespace input is allowed). -/
def jsonParse (s : String) : Option Json :=
  match parseVal (s.data.length + 1) s.data with
  | some (j, rest) => if skipWs rest = [] then some j else none
  | none => none

/-- Boolean coercion of a JSON value, as used by the truthiness test
`parsedResult && parsedResult.url`. -/
def jsTruthy : Json → Bool
  | .null => false
  | .bool b => b
  | .num n => decide (n ≠ 0)
  | .str s => decide (s ≠ "")
  | .arr _ => true
  | .obj _ => true

/-- Property access `j.k` on a parsed value: objects yield their last
binding for the key (later duplicate keys overwrite earlier ones), any
other value yields `none` (undefined). -/
def jsField : Json → String → Option Json
  | .obj fs, k => fs.foldl (fun acc p => if p.1 = k then some p.2 else acc) none
  | _, _ => none

/-- Truthiness of a possibly-undefined value (undefined is falsy). -/
def truthyOpt : Option Json → Bool
  | none => false
  | some j => jsTruthy j

/-- Environment of one `pollLogsForMessage` call: the clock reading it
captures at entry and the log snapshots its queries return. -/
structure PollEnv where
  pollStart : Int
  fetch : Nat → List LogEntry

/-- Terminal rejection reasons of `pollLogsWithRetries`. -/
inductive RetryErr where
  | pollFailed : String → RetryErr
  | parseFailed : RetryErr
  | noImage : String → RetryErr

/-- Result of one `pollLogsWithRetries` call: the settled outcome (ok with
the value of `parsedResult.url`), the number of `pollLogsForMessage`
invocations, and the total number of log queries performed. -/
structure RetryResult where
  outcome : Except RetryErr Json
  pollCalls : Nat
  totalFetches : Nat

/-- Body of `tryPollLogs`, entered with the current value `attempts` of the
attempt counter.  The k-th `pollLogsForMessage` invocation runs in
environment `envs k`.  On a resolved poll the body is trimmed and parsed:
a parse throw is caught (retry path), a parsed value with a truthy `url`
resolves with it, and any other parsed value rejects terminally.  On a
caught error, `attempts` is incremented and the poll is retried unless
`attempts >= maxRetries`, in which case the last error rejects. -/
def retryLoop (pfx tagName : String) (maxRetries : Nat)
    (envs : Nat → PollEnv) (attempts : Nat) : RetryResult :=
  let pr := pollLogsForMessage pfx (envs attempts).pollStart (envs attempts).fetch
  match pr.outcome with
  | .ok result =>
    match jsonParse (jsTrim result) with
    | some parsed =>
      if jsTruthy parsed && truthyOpt (jsField parsed "url") then
        ⟨.ok ((jsField parsed "url").getD .null), 1, pr.fetchCount⟩
      else
        ⟨.error (.noImage tagName), 1, pr.fetchCount⟩
    | none =>
      if attempts + 1 ≥ maxRetries then ⟨.error .parseFailed, 1, pr.fetchCount⟩
      else
        let rest := retryLoop pfx tagName maxRetries envs (attempts + 1)
        ⟨rest.outcome, rest.pollCalls + 1, pr.fetchCount + rest.totalFetches⟩
  | .error m =>
    if attempts + 1 ≥ maxRetries then ⟨.error (.pollFailed m), 1, pr.fetchCount⟩
    else
      let rest := retryLoop pfx tagName maxRetries envs (attempts + 1)
      ⟨rest.outcome, rest.pollCalls + 1, pr.fetchCount + rest.totalFetches⟩
termination_by maxRetries - attempts
decreasing_by all_goals omega

/-- Model of `pollLogsWithRetries(prefix, reqTime, tagName, maxRetries)`.
The `reqTimeArg` received from the caller is forwarded to
`pollLogsForMessage` but dropped there (see `pollLogsForMessageCall`). -/
def pollLogsWithRetries (pfx : String) (_reqTimeArg : Int) (tagName : String)
    (maxRetries : Nat) (envs : Nat → PollEnv) : RetryResult :=
  retryLoop pfx tagName maxRetries envs 0

/-- Environment of one `fetchTagIcon` call: how the `runPluginTask`
promise settles (error models a DispatchError rejection) and the
environments of the successive poll invocations. -/
structure FetchEnv where
  submitResult : Except String Unit
  polls : Nat → PollEnv

/-- Observable run of one `fetchTagIcon` call: `settled = none` means the
returned promise never settles; `submitCalls` and `pollCalls` count the
`runPluginTask` and `pollLogsForMessage` invocations performed. -/
structure FetchRun where
  settled : Option (Except RetryErr Json)
  submitCalls : Nat
  pollCalls : Nat

/-- Model of `fetchTagIcon`: it records `reqTime = Date.now()`, calls
`runPluginTask` once, and chains `pollLogsWithRetries(prefix, reqTime,
tagName, 5)` on fulfilment only — the dispatch promise has no rejection
handler (no second `then` argument and no `catch` on it), so a rejected
dispatch leaves the returned promise forever pending. -/
def fetchTagIcon (tagName : String) (reqTime : Int) (env : FetchEnv) : FetchRun :=
  let operation := "recraftTagIcon"
  let pfx := "[Plugin / Recraft Tag Icons] " ++ operation ++ " ="
  match env.submitResult with
  | .error _ => ⟨none, 1, 0⟩
  | .ok _ =>
    let r := pollLogsWithRetries pfx reqTime tagName 5 env.polls
    ⟨some r.outcome, 1, r.pollCalls⟩

/-- Correlation prefix built by `fetchTagIcon` for its task. -/
def recraftPfx : String := "[Plugin / Recraft Tag Icons] recraftTagIcon ="

/-- Log message appended by the remote task in the end-to-end scenario. -/
def okMsg : String :=
  "[Plugin / Recraft Tag Icons] recraftTagIcon = \x7b\"url\":\"https://img/1.svg\"\x7d"

/-- Poll environments where the first poll sees no task output and the
second poll sees the task's output entry. -/
def retryEnvs : Nat → PollEnv :=
  fun k => if k = 0 then ⟨0, fun _ => []⟩ else ⟨0, fun _ => [⟨5, "Info", okMsg⟩]⟩

/-- Poll environments whose snapshots contain a correlating entry whose
payload parses but lacks a `url` field. -/
def noUrlEnvs : Nat → PollEnv :=
  fun _ => ⟨0, fun _ => [⟨5, "Info", "P \x7b\"foo\":\"bar\"\x7d"⟩]⟩

/-- Poll environments whose snapshots contain a correlating entry whose
payload is not parsable. -/
def badJsonEnvs : Nat → PollEnv :=
  fun _ => ⟨0, fun _ => [⟨5, "Info", "P notjson"⟩]⟩

/-- Unfolding lemma: a matching entry in the snapshot of attempt `r` ends
the poll loop at once with the extracted body. -/
theorem pollLoop_found (pfx : String) (t : Int) (fetch : Nat → List LogEntry)
    (r : Nat) (e : LogEntry) (h : findMatch t pfx (fetch r) = some e) :
    pollLoop pfx t fetch r = ⟨.ok (extractBody pfx e.message), 1, [2 ^ r * 100]⟩ := by
  rw [pollLoop]
  simp [h]

/-- Unfolding lemma: no match on the final attempt throws the timeout
string. -/
theorem pollLoop_none_stop (pfx : String) (t : Int) (fetch : Nat → List LogEntry)
    (r : Nat) (h : findMatch t pfx (fetch r) = none) (h5 : r + 1 ≥ 5) :
    pollLoop pfx t fetch r =
      ⟨.error ("Poll logs failed for message: " ++ pfx), 1, [2 ^ r * 100]⟩ := by
  rw [pollLoop]
  simp [h, h5]

/-- Unfolding lemma: no match with attempts remaining waits and loops. -/
theorem pollLoop_none_step (pfx : String) (t : Int) (fetch : Nat → List LogEntry)
    (r : Nat) (h : findMatch t pfx (fetch r) = none) (h5 : r + 1 < 5) :
    pollLoop pfx t fetch r =
      ⟨(pollLoop pfx t fetch (r + 1)).outcome,
       (pollLoop pfx t fetch (r + 1)).fetchCount + 1,
       2 ^ r * 100 :: (pollLoop pfx t fetch (r + 1)).waits⟩ := by
  rw [pollLoop]
  have h5' : ¬ (r + 1 ≥ 5) := by omega
  simp [h, h5']

/-- Unfolding lemma: a resolved poll whose body parses with a truthy `url`
field resolves the retry loop with that field's value. -/
theorem retryLoop_ok_url (pfx tagName : String) (mr : Nat) (envs : Nat → PollEnv)
    (a : Nat) (s : String) (j : Json)
    (h : (pollLogsForMessage pfx (envs a).pollStart (envs a).fetch).outcome = .ok s)
    (hp : jsonParse (jsTrim s) = some j)
    (ht : (jsTruthy j && truthyOpt (jsField j "url")) = true) :
    retryLoop pfx tagName mr envs a =
      ⟨.ok ((jsField j "url").getD .null), 1,
       (pollLogsForMessage pfx (envs a).pollStart (envs a).fetch).fetchCount⟩ := by
  rw [retryLoop]
  simp [h, hp, ht]

/-- Unfolding lemma: a resolved poll whose body parses without a truthy
`url` field rejects the retry loop terminally at once. -/
theorem retryLoop_ok_nourl (pfx tagName : String) (mr : Nat) (envs : Nat → PollEnv)
    (a : Nat) (s : String) (j : Json)
    (h : (pollLogsForMessage pfx (envs a).pollStart (envs a).fetch).outcome = .ok s)
    (hp : jsonParse (jsTrim s) = some j)
    (ht : (jsTruthy j && truthyOpt (jsField j "url")) = false) :
    retryLoop pfx tagName mr envs a =
      ⟨.error (.noImage tagName), 1,
       (pollLogsForMessage pfx (envs a).pollStart (envs a).fetch).fetchCount⟩ := by
  rw [retryLoop]
  simp [h, hp, ht]

/-- Unfolding lemma: a parse throw on the last allowed attempt rejects
with the parse error. -/
theorem retryLoop_parse_stop (pfx tagName : String) (mr : Nat) (envs : Nat → PollEnv)
    (a : Nat) (s : String)
    (h : (pollLogsForMessage pfx (envs a).pollStart (envs a).fetch).outcome = .ok s)
    (hp : jsonParse (jsTrim s) = none) (h5 : a + 1 ≥ mr) :
    retryLoop pfx tagName mr envs a =
      ⟨.error .parseFailed, 1,
       (pollLogsForMessage pfx (envs a).pollStart (envs a).fetch).fetchCount⟩ := by
  rw [retryLoop]
  simp [h, hp, h5]

/-- Unfolding lemma: a parse throw with attempts remaining retries the
poll. -/
theorem retryLoop_parse_step (pfx tagName : String) (mr : Nat) (envs : Nat → PollEnv)
    (a : Nat) (s : String)
    (h : (pollLogsForMessage pfx (envs a).pollStart (envs a).fetch).outcome = .ok s)
    (hp : jsonParse (jsTrim s) = none) (h5 : a + 1 < mr) :
    retryLoop pfx tagName mr envs a =
      ⟨(retryLoop pfx tagName mr envs (a + 1)).outcome,
       (retryLoop pfx tagName mr envs (a + 1)).pollCalls + 1,
       (pollLogsForMessage pfx (envs a).pollStart (envs a).fetch).fetchCount +
         (retryLoop pfx tagName mr envs (a + 1)).totalFetches⟩ := by
  rw [retryLoop]
  have h5' : ¬ (a + 1 ≥ mr) := by omega
  simp [h, hp, h5']

/-- Unfolding lemma: a poll failure on the last allowed attempt rejects
with that failure. -/
theorem retryLoop_err_stop (pfx tagName : String) (mr : Nat) (envs : Nat → PollEnv)
    (a : Nat) (m : String)
    (h : (pollLogsForMessage pfx (envs a).pollStart (envs a).fetch).outcome = .error m)
    (h5 : a + 1 ≥ mr) :
    retryLoop pfx tagName mr envs a =
      ⟨.error (.pollFailed m), 1,
       (pollLogsForMessage pfx (envs a).pollStart (envs a).fetch).fetchCount⟩ := by
  rw [retryLoop]
  simp [h, h5]

/-- Unfolding lemma: a poll failure with attempts remaining retries the
poll. -/
theorem retryLoop_err_step (pfx tagName : String) (mr : Nat) (envs : Nat → PollEnv)
    (a : Nat) (m : String)
    (h : (pollLogsForMessage pfx (envs a).pollStart (envs a).fetch).outcome = .error m)
    (h5 : a + 1 < mr) :
    retryLoop pfx tagName mr envs a =
      ⟨(retryLoop pfx tagName mr envs (a + 1)).outcome,
       (retryLoop pfx tagName mr envs (a + 1)).pollCalls + 1,
       (pollLogsForMessage pfx (envs a).pollStart (envs a).fetch).fetchCount +
         (retryLoop pfx tagName mr envs (a + 1)).totalFetches⟩ := by
  rw [retryLoop]
  have h5' : ¬ (a + 1 ≥ mr) := by omega
  simp [h, h5']

/-- A scan result belongs to the snapshot and satisfies the filter. -/
theorem findMatch_mem_pred (t : Int) (pfx : String) :
    ∀ (l : List LogEntry) (e : LogEntry), findMatch t pfx l = some e →
      e ∈ l ∧ matchPred t pfx e = true := by
  intro l
  induction l with
  | nil => intro e he; simp [findMatch] at he
  | cons x xs ih =>
    intro e he
    by_cases hx : matchPred t pfx x = true
    · simp [findMatch, hx] at he
      subst he
      exact ⟨List.mem_cons_self x xs, hx⟩
    · simp [findMatch, hx] at he
      obtain ⟨hmem, hpred⟩ := ih e he
      exact ⟨List.mem_cons_of_mem x hmem, hpred⟩

/-- The scan returns the first entry, in snapshot order, satisfying the
filter: everything before it fails the filter. -/
theorem findMatch_first (t : Int) (pfx : String) :
    ∀ (l : List LogEntry) (e : LogEntry), findMatch t pfx l = some e →
      ∃ l1 l2, l = l1 ++ e :: l2 ∧ matchPred t pfx e = true ∧
        ∀ x ∈ l1, matchPred t pfx x = false := by
  intro l
  induction l with
  | nil => intro e he; simp [findMatch] at he
  | cons x xs ih =>
    intro e he
    by_cases hx : matchPred t pfx x = true
    · simp [findMatch, hx] at he
      subst he
      exact ⟨[], xs, rfl, hx, by simp⟩
    · simp [findMatch, hx] at he
      obtain ⟨l1, l2, heq, hpred, hall⟩ := ih e he
      refine ⟨x :: l1, l2, by simp [heq], hpred, ?_⟩
      intro y hy
      rcases List.mem_cons.mp hy with h | h
      · subst h; simpa using hx
      · exact hall y h

/-- Any value returned by the poll loop is the extraction of some entry
that passed the filter of some attempt's snapshot. -/
theorem pollLoop_ok_exists (pfx : String) (t : Int) (fetch : Nat → List LogEntry) :
    ∀ (n r : Nat) (s : String), 5 - r ≤ n →
      (pollLoop pfx t fetch r).outcome = .ok s →
      ∃ i e, findMatch t pfx (fetch i) = some e ∧ s = extractBody pfx e.message := by
  intro n
  induction n with
  | zero =>
    intro r s hr hok
    cases h : findMatch t pfx (fetch r) with
    | some e =>
      rw [pollLoop_found pfx t fetch r e h] at hok
      exact ⟨r, e, h, by simpa using hok.symm⟩
    | none =>
      rw [pollLoop_none_stop pfx t fetch r h (by omega)] at hok
      simp at hok
  | succ n ih =>
    intro r s hr hok
    cases h : findMatch t pfx (fetch r) with
    | some e =>
      rw [pollLoop_found pfx t fetch r e h] at hok
      exact ⟨r, e, h, by simpa using hok.symm⟩
    | none =>
      by_cases h5 : r + 1 ≥ 5
      · rw [pollLoop_none_stop pfx t fetch r h h5] at hok
        simp at hok
      · rw [pollLoop_none_step pfx t fetch r h (by omega)] at hok
        simp only at hok
        exact ih (r + 1) s (by omega) hok

/-- If no snapshot ever contains a qualifying entry, the poll loop throws
the timeout string. -/
theorem pollLoop_allNone (pfx : String) (t : Int) (fetch : Nat → List LogEntry)
    (h : ∀ i, findMatch t pfx (fetch i) = none) :
    ∀ (n r : Nat), 5 - r ≤ n →
      (pollLoop pfx t fetch r).outcome =
        .error ("Poll logs failed for message: " ++ pfx) := by
  intro n
  induction n with
  | zero =>
    intro r hr
    rw [pollLoop_none_stop pfx t fetch r (h r) (by omega)]
  | succ n ih =>
    intro r hr
    by_cases h5 : r + 1 ≥ 5
    · rw [pollLoop_none_stop pfx t fetch r (h r) h5]
    · rw [pollLoop_none_step pfx t fetch r (h r) (by omega)]
      simpa using ih (r + 1) (by omega)

/-- Full trace of an unsuccessful poll loop run from `retries = 0`: five
fetches with backoff waits 100, 200, 400, 800, 1600 ms, then the timeout
throw. -/
theorem pollLoop_allNone_trace (pfx : String) (t : Int) (fetch : Nat → List LogEntry)
    (h : ∀ i, findMatch t pfx (fetch i) = none) :
    pollLoop pfx t fetch 0 =
      ⟨.error ("Poll logs failed for message: " ++ pfx), 5,
       [100, 200, 400, 800, 1600]⟩ := by
  have h4 := pollLoop_none_stop pfx t fetch 4 (h 4) (by omega)
  have h3 := pollLoop_none_step pfx t fetch 3 (h 3) (by omega)
  have h2 := pollLoop_none_step pfx t fetch 2 (h 2) (by omega)
  have h1 := pollLoop_none_step pfx t fetch 1 (h 1) (by omega)
  have h0 := pollLoop_none_step pfx t fetch 0 (h 0) (by omega)
  rw [h0, h1, h2, h3, h4]
  norm_num

/-- The poll loop performs at most `max (5 - r) 1` log queries. -/
theorem pollLoop_fetch_le (pfx : String) (t : Int) (fetch : Nat → List LogEntry) :
    ∀ (n r : Nat), 5 - r ≤ n →
      (pollLoop pfx t fetch r).fetchCount ≤ max (5 - r) 1 := by
  intro n
  induction n with
  | zero =>
    intro r hr
    cases h : findMatch t pfx (fetch r) with
    | some e => rw [pollLoop_found pfx t fetch r e h]; simp
    | none => rw [pollLoop_none_stop pfx t fetch r h (by omega)]; simp
  | succ n ih =>
    intro r hr
    cases h : findMatch t pfx (fetch r) with
    | some e => rw [pollLoop_found pfx t fetch r e h]; simp
    | none =>
      by_cases h5 : r + 1 ≥ 5
      · rw [pollLoop_none_stop pfx t fetch r h h5]; simp
      · rw [pollLoop_none_step pfx t fetch r h (by omega)]
        have := ih (r + 1) (by omega)
        simp only at this ⊢
        omega

/-- One `pollLogsForMessage` call performs at most 5 log queries. -/
theorem pollLogsForMessage_fetch_le (pfx : String) (t : Int)
    (fetch : Nat → List LogEntry) :
    (pollLogsForMessage pfx t fetch).fetchCount ≤ 5 := by
  have := pollLoop_fetch_le pfx t fetch 5 0 (by omega)
  simpa [pollLogsForMessage] using this

/-- Retry-loop resource bounds: at most `max (mr - a) 1` poll invocations
and five log queries per invocation. -/
theorem retryLoop_bounds (pfx tagName : String) (mr : Nat) (envs : Nat → PollEnv) :
    ∀ (n a : Nat), mr - a ≤ n →
      (retryLoop pfx tagName mr envs a).pollCalls ≤ max (mr - a) 1 ∧
      (retryLoop pfx tagName mr envs a).totalFetches ≤ (max (mr - a) 1) * 5 := by
  intro n
  induction n with
  | zero =>
    intro a ha
    have hfc := pollLogsForMessage_fetch_le pfx (envs a).pollStart (envs a).fetch
    have h5 : a + 1 ≥ mr := by omega
    cases hout : (pollLogsForMessage pfx (envs a).pollStart (envs a).fetch).outcome with
    | ok s =>
      cases hp : jsonParse (jsTrim s) with
      | some j =>
        cases ht : (jsTruthy j && truthyOpt (jsField j "url")) with
        | true =>
          rw [retryLoop_ok_url pfx tagName mr envs a s j hout hp ht]
          dsimp only
          omega
        | false =>
          rw [retryLoop_ok_nourl pfx tagName mr envs a s j hout hp ht]
          dsimp only
          omega
      | none =>
        rw [retryLoop_parse_stop pfx tagName mr envs a s hout hp h5]
        dsimp only
        omega
    | error m =>
      rw [retryLoop_err_stop pfx tagName mr envs a m hout h5]
      dsimp only
      omega
  | succ n ih =>
    intro a ha
    have hfc := pollLogsForMessage_fetch_le pfx (envs a).pollStart (envs a).fetch
    cases hout : (pollLogsForMessage pfx (envs a).pollStart (envs a).fetch).outcome with
    | ok s =>
      cases hp : jsonParse (jsTrim s) with
      | some j =>
        cases ht : (jsTruthy j && truthyOpt (jsField j "url")) with
        | true =>
          rw [retryLoop_ok_url pfx tagName mr envs a s j hout hp ht]
          dsimp only
          omega
        | false =>
          rw [retryLoop_ok_nourl pfx tagName mr envs a s j hout hp ht]
          dsimp only
          omega
      | none =>
        by_cases h5 : a + 1 ≥ mr
        · rw [retryLoop_parse_stop pfx tagName mr envs a s hout hp h5]
          dsimp only
          omega
        · rw [retryLoop_parse_step pfx tagName mr envs a s hout hp (by omega)]
          obtain ⟨ih1, ih2⟩ := ih (a + 1) (by omega)
          dsimp only
          omega
    | error m =>
      by_cases h5 : a + 1 ≥ mr
      · rw [retryLoop_err_stop pfx tagName mr envs a m hout h5]
        dsimp only
        omega
      · rw [retryLoop_err_step pfx tagName mr envs a m hout (by omega)]
        obtain ⟨ih1, ih2⟩ := ih (a + 1) (by omega)
        dsimp only
        omega

/-- Removing the first occurrence of a pattern that the string starts
with removes exactly that leading occurrence. -/
theorem replaceFirst_of_isPfx (pat cs : List Char) (h : pat.isPrefixOf cs = true) :
    replaceFirstChars pat [] cs = cs.drop pat.length := by
  cases cs with
  | nil =>
    cases pat with
    | nil => simp [replaceFirstChars]
    | cons p ps => simp [List.isPrefixOf] at h
  | cons c cs' => simp [replaceFirstChars, h]

/-- Two entries that agree on everything except the log level. -/
def sameExceptLevel (e1 e2 : LogEntry) : Prop :=
  e1.time = e2.time ∧ e1.message = e2.message

/-- The filter cannot distinguish entries differing only in level. -/
theorem matchPred_level_indep (t : Int) (pfx : String) (e1 e2 : LogEntry)
    (h : sameExceptLevel e1 e2) : matchPred t pfx e1 = matchPred t pfx e2 := by
  obtain ⟨ht, hm⟩ := h
  simp [matchPred, ht, hm]

/-- The snapshot scan is level-blind: on level-equivalent snapshots it
selects level-equivalent entries (or none on both). -/
theorem findMatch_level_indep (t : Int) (pfx : String) :
    ∀ (l1 l2 : List LogEntry), List.Forall₂ sameExceptLevel l1 l2 →
      (findMatch t pfx l1 = none ∧ findMatch t pfx l2 = none) ∨
      (∃ e1 e2, findMatch t pfx l1 = some e1 ∧ findMatch t pfx l2 = some e2 ∧
        sameExceptLevel e1 e2) := by
  intro l1 l2 h
  induction h with
  | nil => left; exact ⟨rfl, rfl⟩
  | cons hx hrest ih =>
    rename_i x1 x2 xs1 xs2
    by_cases hp : matchPred t pfx x1 = true
    · right
      refine ⟨x1, x2, by simp [findMatch, hp], ?_, hx⟩
      rw [matchPred_level_indep t pfx x1 x2 hx] at hp
      simp [findMatch, hp]
    · have hp2 : ¬ matchPred t pfx x2 = true := by
        rw [← matchPred_level_indep t pfx x1 x2 hx]; exact hp
      rcases ih with ⟨hn1, hn2⟩ | ⟨e1, e2, he1, he2, hee⟩
      · left; constructor <;> simp [findMatch, hp, hp2, hn1, hn2]
      · right; exact ⟨e1, e2, by simp [findMatch, hp, he1], by simp [findMatch, hp2, he2], hee⟩

/-- The poll loop is level-blind: level-equivalent snapshot environments
produce identical results. -/
theorem pollLoop_level_indep (pfx : String) (t : Int)
    (f1 f2 : Nat → List LogEntry)
    (h : ∀ i, List.Forall₂ sameExceptLevel (f1 i) (f2 i)) :
    ∀ (n r : Nat), 5 - r ≤ n →
      pollLoop pfx t f1 r = pollLoop pfx t f2 r := by
  intro n
  induction n with
  | zero =>
    intro r hr
    rcases findMatch_level_indep t pfx (f1 r) (f2 r) (h r) with
      ⟨hn1, hn2⟩ | ⟨e1, e2, he1, he2, hee⟩
    · rw [pollLoop_none_stop pfx t f1 r hn1 (by omega),
        pollLoop_none_stop pfx t f2 r hn2 (by omega)]
    · rw [pollLoop_found pfx t f1 r e1 he1, pollLoop_found pfx t f2 r e2 he2, hee.2]
  | succ n ih =>
    intro r hr
    rcases findMatch_level_indep t pfx (f1 r) (f2 r) (h r) with
      ⟨hn1, hn2⟩ | ⟨e1, e2, he1, he2, hee⟩
    · by_cases h5 : r + 1 ≥ 5
      · rw [pollLoop_none_stop pfx t f1 r hn1 h5, pollLoop_none_stop pfx t f2 r hn2 h5]
      · rw [pollLoop_none_step pfx t f1 r hn1 (by omega),
          pollLoop_none_step pfx t f2 r hn2 (by omega), ih (r + 1) (by omega)]
    · rw [pollLoop_found pfx t f1 r e1 he1, pollLoop_found pfx t f2 r e2 he2, hee.2]

/-- C1: the claim says every `fetchTagIcon` invocation settles with one
definitive outcome even when task submission fails, but a rejected
`runPluginTask` promise has no rejection handler attached, so the
returned promise never settles: at the failing input the model yields
`settled = none` (while the single dispatch was indeed attempted). -/
theorem claim_C1_bug :
    (fetchTagIcon "Forest" 1000
      ⟨.error "DispatchError", fun _ => ⟨0, fun _ => []⟩⟩).settled = none ∧
    (fetchTagIcon "Forest" 1000
      ⟨.error "DispatchError", fun _ => ⟨0, fun _ => []⟩⟩).submitCalls = 1 :=
  ⟨rfl, rfl⟩

/-- C2: the claim says the poll filter reference is the submission-time
timestamp, so an entry logged between submission (at 1000) and poll start
(at 2000) — here at time 1500, prefix-matching, hence eligible per the
claim — should be returnable; the source `pollLogsForMessage` declares
only the `prefix` parameter, drops the passed reference, recomputes
`Date.now()` at poll start, and therefore times out instead. -/
theorem claim_C2_bug :
    matchPred 1000 "P" ⟨1500, "Info", "P body"⟩ = true ∧
    (pollLogsForMessageCall "P" "Info" 1000 2000
      (fun _ => [⟨1500, "Info", "P body"⟩])).outcome =
      .error ("Poll logs failed for message: " ++ "P") := by
  refine ⟨rfl, ?_⟩
  have h : ∀ i : Nat,
      findMatch 2000 "P" ((fun _ : Nat => [(⟨1500, "Info", "P body"⟩ : LogEntry)]) i) = none :=
    fun _ => rfl
  have := pollLoop_allNone "P" 2000 (fun _ => [⟨1500, "Info", "P body"⟩]) h 5 0 (by omega)
  simpa [pollLogsForMessageCall, pollLogsForMessage] using this

/-- C3: every value the poller returns is extracted from an entry of some
fetched snapshot whose timestamp is strictly greater than the reference
timestamp the poll uses and whose message starts with the expected
prefix; hence an entry at or before the reference is never the source of
a returned value. -/
theorem claim_C3 (pfx : String) (T : Int) (fetch : Nat → List LogEntry) (s : String)
    (h : (pollLogsForMessage pfx T fetch).outcome = .ok s) :
    ∃ i e, e ∈ fetch i ∧ e.time > T ∧ jsStartsWith e.message pfx = true ∧
      s = extractBody pfx e.message := by
  have h' : (pollLoop pfx T fetch 0).outcome = .ok s := by
    simpa [pollLogsForMessage] using h
  obtain ⟨i, e, hf, hs⟩ := pollLoop_ok_exists pfx T fetch 5 0 s (by omega) h'
  obtain ⟨hmem, hpred⟩ := findMatch_mem_pred T pfx (fetch i) e hf
  rw [matchPred, Bool.and_eq_true] at hpred
  exact ⟨i, e, hmem, by simpa using hpred.1, hpred.2, hs⟩

theorem claim_C3_witness :
    ∃ i e, e ∈ (fun _ : Nat => [(⟨5, "Info", "P x"⟩ : LogEntry)]) i ∧ e.time > 0 ∧
      jsStartsWith e.message "P" = true ∧ "x" = extractBody "P" e.message := by
  apply claim_C3 "P" 0 (fun _ => [⟨5, "Info", "P x"⟩]) "x"
  have hpo := pollLoop_found "P" 0 (fun _ : Nat => [(⟨5, "Info", "P x"⟩ : LogEntry)]) 0
    ⟨5, "Info", "P x"⟩ rfl
  simp only [pollLogsForMessage, hpo]
  rfl

/-- C6, counterexample: with two qualifying entries (times 20 and 10),
the poller returns the extraction of whichever qualifying entry the log
API listed first — here the time-20 entry, not the smallest-timestamp
entry — and reversing the snapshot order changes the result, refuting
both the smallest-timestamp selection and the order-independence. -/
theorem claim_C6_counterexample :
    (pollLogsForMessage "P" 0
      (fun _ => [⟨20, "Info", "P b"⟩, ⟨10, "Info", "P a"⟩])).outcome = .ok "b" ∧
    (pollLogsForMessage "P" 0
      (fun _ => [⟨10, "Info", "P a"⟩, ⟨20, "Info", "P b"⟩])).outcome = .ok "a" ∧
    matchPred 0 "P" ⟨10, "Info", "P a"⟩ = true ∧
    matchPred 0 "P" ⟨20, "Info", "P b"⟩ = true ∧
    (10 : Int) < 20 := by
  refine ⟨?_, ?_, rfl, rfl, by norm_num⟩
  · have hpo := pollLoop_found "P" 0
      (fun _ : Nat => [(⟨20, "Info", "P b"⟩ : LogEntry), ⟨10, "Info", "P a"⟩]) 0
      ⟨20, "Info", "P b"⟩ rfl
    simp only [pollLogsForMessage, hpo]
    rfl
  · have hpo := pollLoop_found "P" 0
      (fun _ : Nat => [(⟨10, "Info", "P a"⟩ : LogEntry), ⟨20, "Info", "P b"⟩]) 0
      ⟨10, "Info", "P a"⟩ rfl
    simp only [pollLogsForMessage, hpo]
    rfl

/-- C6, amended: when the first attempt's snapshot contains a qualifying
entry, the poller returns the first qualifying entry in snapshot order
(every earlier entry fails the filter) after exactly one query, stopping
immediately; the selection depends on the order the log API returned. -/
theorem claim_C6_amended (pfx : String) (t : Int) (fetch : Nat → List LogEntry)
    (e : LogEntry) (h : findMatch t pfx (fetch 0) = some e) :
    (∃ l1 l2, fetch 0 = l1 ++ e :: l2 ∧ matchPred t pfx e = true ∧
      ∀ x ∈ l1, matchPred t pfx x = false) ∧
    pollLogsForMessage pfx t fetch =
      ⟨.ok (extractBody pfx e.message), 1, [500, 100]⟩ := by
  refine ⟨findMatch_first t pfx (fetch 0) e h, ?_⟩
  have hpo := pollLoop_found pfx t fetch 0 e h
  simp [pollLogsForMessage, hpo]

theorem claim_C6_amended_witness :
    ((∃ l1 l2,
        (fun _ : Nat => [(⟨5, "Info", "P x"⟩ : LogEntry)]) 0 =
          l1 ++ (⟨5, "Info", "P x"⟩ : LogEntry) :: l2 ∧
        matchPred 0 "P" ⟨5, "Info", "P x"⟩ = true ∧
        ∀ x ∈ l1, matchPred 0 "P" x = false) ∧
      pollLogsForMessage "P" 0 (fun _ => [⟨5, "Info", "P x"⟩]) =
        ⟨.ok (extractBody "P" (⟨5, "Info", "P x"⟩ : LogEntry).message), 1, [500, 100]⟩) :=
  claim_C6_amended "P" 0 (fun _ => [⟨5, "Info", "P x"⟩]) ⟨5, "Info", "P x"⟩ rfl

/-- C7: when no snapshot ever has a qualifying entry, the poll waits the
fixed 500 ms grace delay and then backoff `100·2^i` before 0-indexed
attempt `i`, performs exactly 5 queries, throws the timeout string, and
the cumulative backoff (excluding the grace delay) is 3100 ms. -/
theorem claim_C7 (pfx : String) (t : Int) (fetch : Nat → List LogEntry)
    (h : ∀ i, findMatch t pfx (fetch i) = none) :
    pollLogsForMessage pfx t fetch =
      ⟨.error ("Poll logs failed for message: " ++ pfx), 5,
       500 :: (List.range 5).map (fun i => 100 * 2 ^ i)⟩ ∧
    ((List.range 5).map (fun i => 100 * 2 ^ i)).sum = 3100 := by
  refine ⟨?_, rfl⟩
  have htr := pollLoop_allNone_trace pfx t fetch h
  simp only [pollLogsForMessage, htr]
  rfl

theorem claim_C7_witness :
    pollLogsForMessage "P" 0 (fun _ => []) =
      ⟨.error ("Poll logs failed for message: " ++ "P"), 5,
       500 :: (List.range 5).map (fun i => 100 * 2 ^ i)⟩ ∧
    ((List.range 5).map (fun i => 100 * 2 ^ i)).sum = 3100 :=
  claim_C7 "P" 0 (fun _ => []) (fun _ => rfl)

/-- C8: extraction on a prefix-matching message removes exactly the
leading prefix occurrence and trims the surrounding whitespace, and on
the spec's example message the remainder parses to a payload whose `url`
field is `"http://a"`. -/
theorem claim_C8 (pfx msg : String) (h : jsStartsWith msg pfx = true) :
    extractBody pfx msg = jsTrim ⟨msg.data.drop pfx.data.length⟩ ∧
    extractBody "[Plugin / X] op =" "[Plugin / X] op = \x7b\"url\":\"http://a\"\x7d" =
      "\x7b\"url\":\"http://a\"\x7d" ∧
    jsonParse (extractBody "[Plugin / X] op =" "[Plugin / X] op = \x7b\"url\":\"http://a\"\x7d") =
      some (.obj [("url", .str "http://a")]) := by
  refine ⟨?_, rfl, rfl⟩
  unfold extractBody jsReplaceFirst
  rw [show ("" : String).data = [] from rfl,
    replaceFirst_of_isPfx pfx.data msg.data (by simpa [jsStartsWith] using h)]

theorem claim_C8_witness :
    extractBody "[Plugin / X] op =" "[Plugin / X] op = \x7b\"url\":\"http://a\"\x7d" =
      jsTrim ⟨("[Plugin / X] op = \x7b\"url\":\"http://a\"\x7d" : String).data.drop
        ("[Plugin / X] op =" : String).data.length⟩ ∧
    extractBody "[Plugin / X] op =" "[Plugin / X] op = \x7b\"url\":\"http://a\"\x7d" =
      "\x7b\"url\":\"http://a\"\x7d" ∧
    jsonParse (extractBody "[Plugin / X] op =" "[Plugin / X] op = \x7b\"url\":\"http://a\"\x7d") =
      some (.obj [("url", .str "http://a")]) :=
  claim_C8 "[Plugin / X] op =" "[Plugin / X] op = \x7b\"url\":\"http://a\"\x7d" rfl

/-- C9: every retry run is total and resource-bounded: each
`pollLogsForMessage` call performs at most 5 log queries, the retry loop
invokes it at most `maxRetries` times (at least once), and with
`maxRetries = 5` the log endpoint is queried at most 25 times. -/
theorem claim_C9 (pfx tagName : String) (reqTimeArg : Int) (maxRetries : Nat)
    (envs : Nat → PollEnv) :
    (∀ t fetch, (pollLogsForMessage pfx t fetch).fetchCount ≤ 5) ∧
    (pollLogsWithRetries pfx reqTimeArg tagName maxRetries envs).pollCalls ≤
      max maxRetries 1 ∧
    (pollLogsWithRetries pfx reqTimeArg tagName 5 envs).pollCalls ≤ 5 ∧
    (pollLogsWithRetries pfx reqTimeArg tagName 5 envs).totalFetches ≤ 25 := by
  have hg := retryLoop_bounds pfx tagName maxRetries envs maxRetries 0 (by omega)
  have h5 := retryLoop_bounds pfx tagName 5 envs 5 0 (by omega)
  refine ⟨fun t fetch => pollLogsForMessage_fetch_le pfx t fetch, ?_, ?_, ?_⟩
  · have h1 := hg.1
    simp only [pollLogsWithRetries]
    omega
  · have h1 := h5.1
    simp only [pollLogsWithRetries]
    omega
  · have h2 := h5.2
    simp only [pollLogsWithRetries]
    omega

/-- C10: matching is level-blind — the level argument passed at the call
site is dropped by the source signature, and two runs over snapshots
that differ only in the entries' level fields produce identical results. -/
theorem claim_C10 (pfx lvlA lvlB : String) (rqA rqB : Int) (t : Int)
    (f1 f2 : Nat → List LogEntry)
    (h : ∀ i, List.Forall₂ sameExceptLevel (f1 i) (f2 i)) :
    pollLogsForMessageCall pfx lvlA rqA t f1 = pollLogsForMessageCall pfx lvlB rqB t f2 := by
  have heq := pollLoop_level_indep pfx t f1 f2 h 5 0 (by omega)
  simp [pollLogsForMessageCall, pollLogsForMessage, heq]

theorem claim_C10_witness :
    pollLogsForMessageCall "P" "Info" 1000 0 (fun _ => [⟨5, "Info", "P x"⟩]) =
    pollLogsForMessageCall "P" "Debug" 2000 0 (fun _ => [⟨5, "Error", "P x"⟩]) :=
  claim_C10 "P" "Info" "Debug" 1000 2000 0
    (fun _ => [⟨5, "Info", "P x"⟩]) (fun _ => [⟨5, "Error", "P x"⟩])
    (fun _ => List.Forall₂.cons ⟨rfl, rfl⟩ List.Forall₂.nil)

/-- C4, counterexample: after the first poll times out with four cycles
remaining, the orchestrator resolves via a second poll while having
submitted the task exactly once — no re-submission precedes the resumed
polling, refuting the claimed submit→poll→extract retry cycle. -/
theorem claim_C4_counterexample :
    (fetchTagIcon "Forest" 1000 ⟨.ok (), retryEnvs⟩).settled =
      some (.ok (.str "https://img/1.svg")) ∧
    (fetchTagIcon "Forest" 1000 ⟨.ok (), retryEnvs⟩).pollCalls = 2 ∧
    (fetchTagIcon "Forest" 1000 ⟨.ok (), retryEnvs⟩).submitCalls = 1 := by
  have h0out : (pollLogsForMessage recraftPfx 0 (fun _ : Nat => ([] : List LogEntry))).outcome =
      .error ("Poll logs failed for message: " ++ recraftPfx) := by
    have h := pollLoop_allNone recraftPfx 0 (fun _ : Nat => ([] : List LogEntry))
      (fun _ => rfl) 5 0 (by omega)
    simpa [pollLogsForMessage] using h
  have h1 := retryLoop_err_step recraftPfx "Forest" 5 retryEnvs 0
    ("Poll logs failed for message: " ++ recraftPfx) h0out (by omega)
  have h1out : (pollLogsForMessage recraftPfx 0
      (fun _ : Nat => [(⟨5, "Info", okMsg⟩ : LogEntry)])).outcome =
      .ok (extractBody recraftPfx okMsg) := by
    have hpo := pollLoop_found recraftPfx 0
      (fun _ : Nat => [(⟨5, "Info", okMsg⟩ : LogEntry)]) 0 ⟨5, "Info", okMsg⟩ rfl
    simp only [pollLogsForMessage, hpo]
  have h2 := retryLoop_ok_url recraftPfx "Forest" 5 retryEnvs 1
    (extractBody recraftPfx okMsg) (.obj [("url", .str "https://img/1.svg")]) h1out rfl rfl
  have hone : (0 : Nat) + 1 = 1 := rfl
  rw [hone] at h1
  have hfetch : fetchTagIcon "Forest" 1000 ⟨.ok (), retryEnvs⟩ =
      ⟨some (retryLoop recraftPfx "Forest" 5 retryEnvs 0).outcome, 1,
       (retryLoop recraftPfx "Forest" 5 retryEnvs 0).pollCalls⟩ := rfl
  rw [hfetch, h1, h2]
  exact ⟨rfl, rfl, rfl⟩

/-- C4, amended: the orchestrator submits the task exactly once per
invocation; on a poll failure with cycles remaining only the poll is
repeated (the next attempt runs in its own environment, with its own
poll-local reference timestamp), with no new submission. -/
theorem claim_C4_amended (tagName : String) (reqTime : Int) (env : FetchEnv) :
    (fetchTagIcon tagName reqTime env).submitCalls = 1 ∧
    (∀ (pfx tn : String) (mr : Nat) (envs : Nat → PollEnv) (a : Nat) (m : String),
      (pollLogsForMessage pfx (envs a).pollStart (envs a).fetch).outcome = .error m →
      a + 1 < mr →
      (retryLoop pfx tn mr envs a).outcome = (retryLoop pfx tn mr envs (a + 1)).outcome ∧
      (retryLoop pfx tn mr envs a).pollCalls =
        (retryLoop pfx tn mr envs (a + 1)).pollCalls + 1) := by
  constructor
  · obtain ⟨sr, polls⟩ := env
    cases sr <;> rfl
  · intro pfx tn mr envs a m hout hlt
    rw [retryLoop_err_step pfx tn mr envs a m hout hlt]
    exact ⟨rfl, rfl⟩

theorem claim_C4_amended_witness :
    (fetchTagIcon "Forest" 1000 ⟨.ok (), retryEnvs⟩).submitCalls = 1 ∧
    ((retryLoop recraftPfx "Forest" 5 retryEnvs 0).outcome =
        (retryLoop recraftPfx "Forest" 5 retryEnvs (0 + 1)).outcome ∧
      (retryLoop recraftPfx "Forest" 5 retryEnvs 0).pollCalls =
        (retryLoop recraftPfx "Forest" 5 retryEnvs (0 + 1)).pollCalls + 1) := by
  have H := claim_C4_amended "Forest" 1000 ⟨.ok (), retryEnvs⟩
  refine ⟨H.1, H.2 recraftPfx "Forest" 5 retryEnvs 0
    ("Poll logs failed for message: " ++ recraftPfx) ?_ (by omega)⟩
  have h := pollLoop_allNone recraftPfx 0 (fun _ : Nat => ([] : List LogEntry))
    (fun _ => rfl) 5 0 (by omega)
  simpa [pollLogsForMessage] using h

/-- C5, counterexample: a correlating entry whose payload parses but
lacks the `url` field makes the retry loop reject terminally after a
single poll, even though four retry cycles remain — refuting the claim
that such a validation failure is retried. -/
theorem claim_C5_counterexample :
    (pollLogsWithRetries "P" 1000 "Forest" 5 noUrlEnvs).outcome =
      .error (.noImage "Forest") ∧
    (pollLogsWithRetries "P" 1000 "Forest" 5 noUrlEnvs).pollCalls = 1 := by
  have h1out : (pollLogsForMessage "P" 0 (fun _ : Nat =>
      [(⟨5, "Info", "P \x7b\"foo\":\"bar\"\x7d"⟩ : LogEntry)])).outcome =
      .ok (extractBody "P" "P \x7b\"foo\":\"bar\"\x7d") := by
    have hpo := pollLoop_found "P" 0
      (fun _ : Nat => [(⟨5, "Info", "P \x7b\"foo\":\"bar\"\x7d"⟩ : LogEntry)]) 0
      ⟨5, "Info", "P \x7b\"foo\":\"bar\"\x7d"⟩ rfl
    simp only [pollLogsForMessage, hpo]
  have h := retryLoop_ok_nourl "P" "Forest" 5 noUrlEnvs 0
    (extractBody "P" "P \x7b\"foo\":\"bar\"\x7d") (.obj [("foo", .str "bar")]) h1out rfl rfl
  constructor
  · simp only [pollLogsWithRetries, h]
  · simp only [pollLogsWithRetries, h]

/-- C5, amended: a correlating entry whose payload is not parsable is
retried (a further poll runs) when cycles remain, but a payload that
parses without a truthy `url` field rejects terminally at once. -/
theorem claim_C5_amended (pfx tagName : String) (mr : Nat) (envs : Nat → PollEnv)
    (a : Nat) (s : String) (j : Json) :
    ((pollLogsForMessage pfx (envs a).pollStart (envs a).fetch).outcome = .ok s →
      jsonParse (jsTrim s) = none → a + 1 < mr →
      (retryLoop pfx tagName mr envs a).outcome =
        (retryLoop pfx tagName mr envs (a + 1)).outcome ∧
      (retryLoop pfx tagName mr envs a).pollCalls =
        (retryLoop pfx tagName mr envs (a + 1)).pollCalls + 1) ∧
    ((pollLogsForMessage pfx (envs a).pollStart (envs a).fetch).outcome = .ok s →
      jsonParse (jsTrim s) = some j →
      (jsTruthy j && truthyOpt (jsField j "url")) = false →
      (retryLoop pfx tagName mr envs a).outcome = .error (.noImage tagName) ∧
      (retryLoop pfx tagName mr envs a).pollCalls = 1) := by
  constructor
  · intro hout hp hlt
    rw [retryLoop_parse_step pfx tagName mr envs a s hout hp hlt]
    exact ⟨rfl, rfl⟩
  · intro hout hp ht
    rw [retryLoop_ok_nourl pfx tagName mr envs a s j hout hp ht]
    exact ⟨rfl, rfl⟩

theorem claim_C5_amended_witness :
    ((retryLoop "P" "Forest" 5 badJsonEnvs 0).outcome =
        (retryLoop "P" "Forest" 5 badJsonEnvs (0 + 1)).outcome ∧
      (retryLoop "P" "Forest" 5 badJsonEnvs 0).pollCalls =
        (retryLoop "P" "Forest" 5 badJsonEnvs (0 + 1)).pollCalls + 1) ∧
    ((retryLoop "P" "Forest" 5 noUrlEnvs 0).outcome = .error (.noImage "Forest") ∧
      (retryLoop "P" "Forest" 5 noUrlEnvs 0).pollCalls = 1) := by
  have hbad : (pollLogsForMessage "P" 0 (fun _ : Nat =>
      [(⟨5, "Info", "P notjson"⟩ : LogEntry)])).outcome =
      .ok (extractBody "P" "P notjson") := by
    have hpo := pollLoop_found "P" 0
      (fun _ : Nat => [(⟨5, "Info", "P notjson"⟩ : LogEntry)]) 0
      ⟨5, "Info", "P notjson"⟩ rfl
    simp only [pollLogsForMessage, hpo]
  have hnourl : (pollLogsForMessage "P" 0 (fun _ : Nat =>
      [(⟨5, "Info", "P \x7b\"foo\":\"bar\"\x7d"⟩ : LogEntry)])).outcome =
      .ok (extractBody "P" "P \x7b\"foo\":\"bar\"\x7d") := by
    have hpo := pollLoop_found "P" 0
      (fun _ : Nat => [(⟨5, "Info", "P \x7b\"foo\":\"bar\"\x7d"⟩ : LogEntry)]) 0
      ⟨5, "Info", "P \x7b\"foo\":\"bar\"\x7d"⟩ rfl
    simp only [pollLogsForMessage, hpo]
  exact ⟨(claim_C5_amended "P" "Forest" 5 badJsonEnvs 0
      (extractBody "P" "P notjson") .null).1 hbad rfl (by omega),
    (claim_C5_amended "P" "Forest" 5 noUrlEnvs 0
      (extractBody "P" "P \x7b\"foo\":\"bar\"\x7d") (.obj [("foo", .str "bar")])).2
      hnourl rfl rfl⟩
